import Mathlib

/-!
Verification of the Sample core of PeekabooAV (`src/peekaboo/sample.py`)
against its natural-language specification.

The Python code is shallowly embedded: the per-sample attribute dictionary
becomes an association list with Python-dict update semantics, stateful
methods become explicit state-passing functions on a `SampleState` record,
raised exceptions become `Option String` / `Except String` results, and the
external oracles the code consults (file contents hash, `re.sub`, fresh job
hashes, `mkdtemp` names, MIME sniffers, `os.stat`, the wall clock, socket
send outcomes) become explicit parameters, so that every function is a pure,
executable translation of the corresponding Python.
-/

namespace Peekaboo

/-- Modelled from the spec: the ordered severity enumeration of
`peekaboo.ruleset.Result` (that module is not under `src/`); the spec gives
the order `unchecked < clean < suspicious < malicious < failed`. -/
inductive RResult where
  | unchecked
  | clean
  | suspicious
  | malicious
  | failed
deriving DecidableEq, Repr

/-- Numeric severity rank realising the spec's order on `RResult`. -/
def RResult.sev : RResult → Nat
  | .unchecked => 0
  | .clean => 1
  | .suspicious => 2
  | .malicious => 3
  | .failed => 4

/-- Modelled from the spec: the `.name` rendering of a severity value
(used by `Sample.report` as `self.__result.name`). -/
def RResult.rname : RResult → String
  | .unchecked => "unchecked"
  | .clean => "clean"
  | .suspicious => "suspicious"
  | .malicious => "malicious"
  | .failed => "failed"

/-- A rule verdict as consumed by `Sample.add_rule_result` /
`Sample.determine_result`: a severity plus a reason string. -/
structure RuleResult where
  result : RResult
  reason : String
deriving DecidableEq, Repr

/-- The part of `os.stat`'s result the code uses (`st_size`). -/
structure FileStat where
  st_size : Nat
deriving DecidableEq, Repr

/-- The values stored in the sample's attribute dictionary
(`Sample.__attributes`): strings, MIME-type sets, rule-result lists,
stat results and booleans. -/
inductive AttrValue where
  | str : String → AttrValue
  | mime : Finset String → AttrValue
  | results : List RuleResult → AttrValue
  | stat : FileStat → AttrValue
  | flag : Bool → AttrValue
deriving DecidableEq

/-- Projection used where the Python code trusts a stored attribute to be a
string. -/
def AttrValue.asStr : AttrValue → String
  | .str s => s
  | _ => ""

/-- Projection used where the Python code trusts a stored attribute to be a
MIME-type set. -/
def AttrValue.asMime : AttrValue → Finset String
  | .mime m => m
  | _ => ∅

/-- Projection used where the Python code trusts a stored attribute to be a
rule-result list. -/
def AttrValue.asResults : AttrValue → List RuleResult
  | .results l => l
  | _ => []

/-- Projection used where the Python code trusts a stored attribute to be a
stat result. -/
def AttrValue.asStat : AttrValue → FileStat
  | .stat st => st
  | _ => ⟨0⟩

/-- Projection used where the Python code trusts a stored attribute to be a
boolean. -/
def AttrValue.asFlag : AttrValue → Bool
  | .flag b => b
  | _ => false

/-- The attribute dictionary `Sample.__attributes`: a Python dict modelled
as an association list with unique keys. -/
abbrev Attrs := List (String × AttrValue)

/-- Python dict lookup (`self.__attributes[key]` guarded by `in`). -/
def lookup_attr : Attrs → String → Option AttrValue
  | [], _ => none
  | (k', v) :: rest, k => if k' == k then some v else lookup_attr rest k

/-- Python dict assignment `self.__attributes[key] = val`: replaces an
existing binding in place, else appends. -/
def dict_insert : Attrs → String → AttrValue → Attrs
  | [], k, v => [(k, v)]
  | (k', v') :: rest, k, v =>
      if k' == k then (k, v) :: rest else (k', v') :: dict_insert rest k v

/-- Python dict deletion `del self.__attributes[key]`. -/
def dict_erase : Attrs → String → Attrs
  | [], _ => []
  | (k', v') :: rest, k => if k' == k then rest else (k', v') :: dict_erase rest k

/-- `Sample.has_attr`: membership test on the attribute dictionary. -/
def has_attr (a : Attrs) (k : String) : Bool :=
  (lookup_attr a k).isSome

/-- The `KeyError` message raised by `Sample.get_attr`. -/
def keyNotFoundMsg (k : String) : String :=
  "Attribute for key '" ++ k ++ "' not found."

/-- `Sample.get_attr`: returns the stored value, or raises `KeyError` when
the key is absent. -/
def get_attr (a : Attrs) (k : String) : Except String AttrValue :=
  match lookup_attr a k with
  | some v => .ok v
  | none => .error (keyNotFoundMsg k)

/-- `Sample.set_attr`: raises `KeyError` when the key exists and
`override` is false (the raise happens before any mutation, so the first
component is the unchanged dictionary in that case); otherwise stores the
value. -/
def set_attr (a : Attrs) (k : String) (v : AttrValue) (override : Bool) :
    Attrs × Option String :=
  if has_attr a k && !override then
    (a, some ("Key '" ++ k ++ "' already exists."))
  else
    (dict_insert a k v, none)

/-- `Sample.remove_attr` exactly as written in the source: the key is
deleted when present, and then `ValueError` is raised unconditionally
(the `raise` statement is not guarded by an `else`). -/
def remove_attr (a : Attrs) (k : String) : Attrs × Option String :=
  let a' := if has_attr a k then dict_erase a k else a
  (a', some ("No attribute named \"" ++ k ++ "\" found."))

/-- The mutable per-sample state of a `Sample` object: the fields of
`Sample.__init__` that the verified operations touch. -/
structure SampleState where
  path : String
  filename : String
  base_dir : String
  submit_path : Option String
  wd : Option String
  attributes : Attrs
  report : List String
  result : RResult
  reason : Option String
  initialized : Bool
deriving DecidableEq

/-- The external oracles consulted during `init` / `get_job_hash`:
the sha256 hex digest of the file at `path`, the result of
`re.sub(job_hash_regex, r'\1', path)` (the `re` module is external),
the value `next_job_hash()` would generate, and the unique suffix
`tempfile.mkdtemp` appends to its prefix. -/
structure Env where
  file_hash : String
  re_sub : String
  fresh_hash : String
  mkdtemp_suffix : String
deriving DecidableEq, Repr

/-- Filesystem / transport side effects, recorded in order. -/
inductive FsAction where
  | mkdir : String → FsAction
  | mkdtemp : String → FsAction
  | symlink : String → String → FsAction
  | send : String → FsAction
deriving DecidableEq, Repr

/-- `Sample.get_job_hash`: when the configured pattern substitution changes
the path, the substituted value (the captured group) is the job hash and
nothing is created; when it leaves the path unchanged, a fresh hash is
generated and a directory for it is created under the base directory. -/
def get_job_hash (env : Env) (s : SampleState) : String × List FsAction :=
  let job_hash := env.re_sub
  if job_hash == s.path then
    (env.fresh_hash, [FsAction.mkdir (s.base_dir ++ "/" ++ env.fresh_hash)])
  else
    (job_hash, [])

/-- The extension part of `os.path.splitext(name)[1]` for a basename:
the suffix after the last dot, empty when there is no dot or when every
character before the last dot is itself a dot (CPython's leading-dot rule). -/
def lastDotIdx (cs : List Char) : Option Nat :=
  (List.range cs.length).foldl
    (fun acc i => if cs.getD i ' ' = '.' then some i else acc) none

/-- `os.path.splitext(filename)[1][1:]` as used by `Sample.file_extension`. -/
def splitext_ext (name : String) : String :=
  match lastDotIdx name.data with
  | none => ""
  | some d =>
      if (name.data.take d).any (fun c => c != '.') then
        String.mk (name.data.drop (d + 1))
      else ""

/-- `Sample.sha256sum`: memoized under key `sha256sum`; `file_hash` is the
digest that reading the file now would produce. The third component records
whether the file was actually read and hashed on this call. -/
def sha256sum_acc (file_hash : String) (s : SampleState) :
    String × SampleState × Bool :=
  match lookup_attr s.attributes "sha256sum" with
  | some v => (v.asStr, s, false)
  | none =>
      (file_hash,
       { s with attributes :=
          (set_attr s.attributes "sha256sum" (.str file_hash) true).1 },
       true)

/-- `Sample.file_extension`: memoized under key `file_extension`; computed
from the declared name when present, else from the raw filename. -/
def file_extension_acc (s : SampleState) : String × SampleState × Bool :=
  match lookup_attr s.attributes "file_extension" with
  | some v => (v.asStr, s, false)
  | none =>
      let filename :=
        match lookup_attr s.attributes "meta_info_name_declared" with
        | some v => v.asStr
        | none => s.filename
      let ext := splitext_ext filename
      (ext,
       { s with attributes :=
          (set_attr s.attributes "file_extension" (.str ext) true).1 },
       true)

/-- `Sample.file_size`: memoized under key `file_stat` (the whole stat
result is cached, `st_size` projected on each access); `st` is what
`os.stat(path)` would return now. -/
def file_size_acc (st : FileStat) (s : SampleState) :
    Nat × SampleState × Bool :=
  match lookup_attr s.attributes "file_stat" with
  | some v => (v.asStat.st_size, s, false)
  | none =>
      ((AttrValue.stat st).asStat.st_size,
       { s with attributes :=
          (set_attr s.attributes "file_stat" (.stat st) true).1 },
       true)

/-- `Sample.analyses_time`: memoized under key `analyses_time`; `now` is
the formatted current timestamp. -/
def analyses_time_acc (now : String) (s : SampleState) :
    String × SampleState × Bool :=
  match lookup_attr s.attributes "analyses_time" with
  | some v => (v.asStr, s, false)
  | none =>
      (now,
       { s with attributes :=
          (set_attr s.attributes "analyses_time" (.str now) true).1 },
       true)

/-- `Sample.office_macros`: memoized under key `office_macros`; `m` is
what `has_office_macros(path)` would return now. -/
def office_macros_acc (m : Bool) (s : SampleState) :
    Bool × SampleState × Bool :=
  match lookup_attr s.attributes "office_macros" with
  | some v => (v.asFlag, s, false)
  | none =>
      ((AttrValue.flag m).asFlag,
       { s with attributes :=
          (set_attr s.attributes "office_macros" (.flag m) true).1 },
       true)

/-- The fixed `leave_alone_types['p7s']` allow-list of `Sample.mimetypes`. -/
def leave_alone_p7s : List String :=
  ["application/pkcs7-signature", "application/x-pkcs7-signature",
   "application/pkcs7-mime", "application/x-pkcs7-mime"]

/-- Python's `declared_mt in leave_alone_types['p7s']` (false when
`declared_mt` is `None`). -/
def p7sDeclared : Option String → Bool
  | some t => leave_alone_p7s.contains t
  | none => false

/-- The `declared_mt` local of `Sample.mimetypes`: the value of attribute
`meta_info_type_declared` when present (construction drops null values). -/
def declared_type (s : SampleState) : Option String :=
  match lookup_attr s.attributes "meta_info_type_declared" with
  | some v => some v.asStr
  | none => none

/-- The `declared_filename` local of `Sample.mimetypes`: the value of
attribute `meta_info_name_declared` when present, else the raw filename. -/
def declared_name (s : SampleState) : String :=
  match lookup_attr s.attributes "meta_info_name_declared" with
  | some v => v.asStr
  | none => s.filename

/-- The set computation of `Sample.mimetypes` on first access: `dt` is the
declared type, `dn` the declared filename, `cs` the content-sniffed type of
the file at `path`, `ns` the name-based sniffer. -/
def mimetypes_compute (dt : Option String) (dn : String) (cs : Option String)
    (ns : String → Option String) : Finset String :=
  let mime_types : Finset String :=
    match dt with
    | some t => {t}
    | none => ∅
  if dn == "smime.p7s" && p7sDeclared dt then
    match dt with
    | some t => {t}
    | none => ∅
  else
    let mime_types2 : Finset String :=
      match cs with
      | some t => insert t mime_types
      | none => mime_types
    let mime_types3 : Finset String :=
      match ns dn with
      | some t => insert t mime_types2
      | none => mime_types2
    mime_types3

/-- `Sample.mimetypes`: memoized under key `mimetypes`. -/
def mimetypes_acc (cs : Option String) (ns : String → Option String)
    (s : SampleState) : Finset String × SampleState × Bool :=
  match lookup_attr s.attributes "mimetypes" with
  | some v => (v.asMime, s, false)
  | none =>
      let mt := mimetypes_compute (declared_type s) (declared_name s) cs ns
      (mt,
       { s with attributes :=
          (set_attr s.attributes "mimetypes" (.mime mt) true).1 },
       true)

/-- `Sample.add_rule_result`: append the verdict to the `rule_results`
attribute (starting from the empty list when absent). -/
def add_rule_result (s : SampleState) (r : RuleResult) : SampleState :=
  let rule_results :=
    match lookup_attr s.attributes "rule_results" with
    | some v => v.asResults
    | none => []
  { s with attributes :=
      (set_attr s.attributes "rule_results" (.results (rule_results ++ [r]))
        true).1 }

/-- The loop body of `Sample.determine_result`: the held `(result, reason)`
pair is replaced exactly when the verdict's severity is greater than or
equal to the held severity (`rule_result.result >= self.__result`). -/
def determine_result_loop :
    RResult × Option String → List RuleResult → RResult × Option String
  | st, [] => st
  | st, r :: rest =>
      determine_result_loop
        (if st.1.sev ≤ r.result.sev then (r.result, some r.reason) else st) rest

/-- `Sample.determine_result` as a state transformer: reads attribute
`rule_results` via `get_attr` (whose `KeyError` propagates as the second
component) and folds the loop over it, updating `result` and `reason`. -/
def determine_result_m (s : SampleState) : SampleState × Option String :=
  match get_attr s.attributes "rule_results" with
  | .error e => (s, some e)
  | .ok v =>
      let st := determine_result_loop (s.result, s.reason) v.asResults
      ({ s with result := st.1, reason := st.2 }, none)

/-- The outcome of a raw `socket.send` attempt: success, or an `IOError`
with an errno (`errno.EPIPE` or any other). -/
inductive SendOutcome where
  | ok
  | ioerror : Nat → SendOutcome
deriving DecidableEq, Repr

/-- The exception a raw `self.__socket.send(msg)` raises, if any. -/
def socket_send : SendOutcome → Option Nat
  | .ok => none
  | .ioerror e => some e

/-- `Sample.__send_message`: returns immediately when no socket is present;
otherwise attempts the send and catches `IOError` entirely (broken pipe is
logged as a warning, every other errno via `logger.exception`), so no
exception ever escapes. The result is the exception propagated to the
caller. -/
def send_message (sock : Bool) (out : SendOutcome) (_msg : String) :
    Option String :=
  if sock then
    match socket_send out with
    | none => none
    | some _ => none
  else
    none

/-- Modelled from the spec: the `str(rule_result)` rendering used by
`Sample.report` (defined on `peekaboo.ruleset` objects, not under `src/`);
its exact text is irrelevant to the claims, only that one line per verdict
is emitted. -/
def rule_result_str (r : RuleResult) : String :=
  r.result.rname ++ ": " ++ r.reason

/-- The append-then-send loop of `Sample.report`: each message is appended
to the in-memory report and then passed to `__send_message`; an exception
returned by `__send_message` would abort the loop and propagate. `outs i`
is the outcome of the `i`-th raw socket send. -/
def report_emit (sock : Bool) (outs : Nat → SendOutcome) :
    Nat → SampleState → List String → SampleState × Option String
  | _, s, [] => (s, none)
  | i, s, m :: ms =>
      let s' := { s with report := s.report ++ [m] }
      match send_message sock (outs i) m with
      | some e => (s', some e)
      | none => report_emit sock outs (i + 1) s' ms

/-- `Sample.report`: runs `determine_result`, then emits one line per rule
result and a final classification line; any raised `KeyError` propagates
as the second component. -/
def report_m (sock : Bool) (outs : Nat → SendOutcome) (s : SampleState) :
    SampleState × Option String :=
  match determine_result_m s with
  | (s1, some e) => (s1, some e)
  | (s1, none) =>
      match get_attr s1.attributes "rule_results" with
      | .error e => (s1, some e)
      | .ok v =>
          let msgs := v.asResults.map (fun r =>
            "Datei \"" ++ s1.filename ++ "\": " ++ rule_result_str r ++ "\n")
          let finalMsg := "Die Datei \"" ++ s1.filename ++ "\" wurde als \""
            ++ s1.result.rname ++ "\" eingestuft\n\n"
          report_emit sock outs 0 s1 (msgs ++ [finalMsg])

/-- The working-directory stage of `Sample.init`: when a file extension was
found, derive the job hash (possibly creating a reservation directory),
atomically create the working directory via `mkdtemp` (prefix the job hash,
under the base directory), compute the content hash and symlink
`workingDir/<hash>.<ext>` to the original path, which becomes the submit
path; otherwise do nothing. -/
def init_workdir (env : Env) (file_ext : String) (s : SampleState) :
    SampleState × List FsAction :=
  if file_ext != "" then
    let jh := get_job_hash env s
    let wd := s.base_dir ++ "/" ++ jh.1 ++ env.mkdtemp_suffix
    let sh := sha256sum_acc env.file_hash s
    let submit := wd ++ "/" ++ sh.1 ++ "." ++ file_ext
    ({ sh.2.1 with wd := some wd, submit_path := some submit },
     jh.2 ++ [FsAction.mkdtemp wd, FsAction.symlink s.path submit])
  else
    (s, [])

/-- The report-preamble stage of `Sample.init`: append the initial line
naming the file and its hash, send it over the socket, then append the
declared-name and declared-type metadata lines when those attributes are
present (these two are appended only, never sent). -/
def init_report (env : Env) (s : SampleState) : SampleState × List FsAction :=
  let sh := sha256sum_acc env.file_hash s
  let s1 := sh.2.1
  let message := "Datei \"" ++ s1.filename ++ "\" " ++ sh.1
    ++ " wird analysiert\n"
  let s2 := { s1 with report := s1.report ++ [message] }
  let s3 :=
    match lookup_attr s2.attributes "meta_info_name_declared" with
    | some v =>
        { s2 with report := s2.report
            ++ ["meta info: name_declared: " ++ v.asStr ++ "\n"] }
    | none => s2
  let s4 :=
    match lookup_attr s3.attributes "meta_info_type_declared" with
    | some v =>
        { s3 with report := s3.report
            ++ ["meta info: type_declared: " ++ v.asStr ++ "\n"] }
    | none => s3
  (s4, [FsAction.send message])

/-- `Sample.init`: a no-op when already initialized; otherwise set the
submit path to the original path, determine the file extension, run the
working-directory stage, mark the sample initialized, and emit the report
preamble. -/
def init (env : Env) (s : SampleState) : SampleState × List FsAction :=
  if s.initialized then
    (s, [])
  else
    let s1 := { s with submit_path := some s.path }
    let fe := file_extension_acc s1
    let w := init_workdir env fe.1 fe.2.1
    let s2 := { w.1 with initialized := true }
    let r := init_report env s2
    (r.1, w.2 ++ r.2)

/-- A freshly constructed sample used as a concrete test input: file
`/tmp/p001`, no metadata, nothing analysed yet. -/
def sample0 : SampleState :=
  { path := "/tmp/p001", filename := "p001", base_dir := "/var/lib/peekaboo",
    submit_path := none, wd := none, attributes := [], report := [],
    result := .unchecked, reason := none, initialized := false }

theorem lookup_dict_insert_self (a : Attrs) (k : String) (v : AttrValue) :
    lookup_attr (dict_insert a k v) k = some v := by
  induction a with
  | nil => simp [dict_insert, lookup_attr]
  | cons p rest ih =>
      by_cases h : p.1 = k
      · simp [dict_insert, lookup_attr, h]
      · simp only [dict_insert, lookup_attr]
        rw [if_neg (by simpa using h)]
        simpa [lookup_attr, h] using ih

theorem set_attr_true (a : Attrs) (k : String) (v : AttrValue) :
    set_attr a k v true = (dict_insert a k v, none) := by
  simp [set_attr]

theorem get_attr_dict_insert_self (a : Attrs) (k : String) (v : AttrValue) :
    get_attr (dict_insert a k v) k = .ok v := by
  simp [get_attr, lookup_dict_insert_self]

/-- C7: setting an attribute with `override=false` on an existing key fails
with the already-exists error and leaves the stored value unchanged; with
`override=true` or on a fresh key the value is stored and subsequently
retrievable. -/
theorem set_attr_override_spec (a : Attrs) (k : String) (v : AttrValue) :
    (has_attr a k = true →
      set_attr a k v false = (a, some ("Key '" ++ k ++ "' already exists.")) ∧
      get_attr (set_attr a k v false).1 k = get_attr a k) ∧
    (set_attr a k v true = (dict_insert a k v, none) ∧
      get_attr (set_attr a k v true).1 k = .ok v) ∧
    (has_attr a k = false →
      set_attr a k v false = (dict_insert a k v, none) ∧
      get_attr (set_attr a k v false).1 k = .ok v) := by
  refine ⟨fun h => ?_, ⟨set_attr_true a k v, ?_⟩, fun h => ?_⟩
  · simp [set_attr, h]
  · simp [set_attr_true, get_attr_dict_insert_self]
  · simp [set_attr, h, get_attr_dict_insert_self]

theorem set_attr_override_spec_witness :
    (set_attr [("k", AttrValue.str "v")] "k" (AttrValue.str "w") false
        = ([("k", AttrValue.str "v")], some "Key 'k' already exists.") ∧
      get_attr
        (set_attr [("k", AttrValue.str "v")] "k" (AttrValue.str "w") false).1 "k"
        = get_attr [("k", AttrValue.str "v")] "k") :=
  (set_attr_override_spec [("k", AttrValue.str "v")] "k"
    (AttrValue.str "w")).1 (by decide)

/-- C3: the code of `Sample.remove_attr` deletes a present key and then
still raises `ValueError`; evaluated here at a store that does contain the
key, the call both erases the binding and reports the not-found error,
contradicting the claim (and the method's own docstring) that it raises
only when the key is absent. -/
theorem remove_attr_raises_on_present_key :
    has_attr [("foo", AttrValue.str "bar")] "foo" = true ∧
    remove_attr [("foo", AttrValue.str "bar")] "foo"
      = ([], some "No attribute named \"foo\" found.") := by
  constructor
  · decide
  · decide

/-- C10: when `add_rule_result` was never called (no `rule_results`
attribute), both `determine_result` and `report` raise the attribute
not-found error for key `rule_results` and leave the whole sample state —
report, result and reason — unchanged. -/
theorem report_without_rule_results_raises (sock : Bool)
    (outs : Nat → SendOutcome) (s : SampleState)
    (h : lookup_attr s.attributes "rule_results" = none) :
    determine_result_m s = (s, some (keyNotFoundMsg "rule_results")) ∧
    report_m sock outs s = (s, some (keyNotFoundMsg "rule_results")) := by
  have hg : get_attr s.attributes "rule_results"
      = .error (keyNotFoundMsg "rule_results") := by
    simp [get_attr, h]
  constructor
  · simp [determine_result_m, hg]
  · simp [report_m, determine_result_m, hg]

theorem report_without_rule_results_raises_witness :
    determine_result_m sample0
      = (sample0, some (keyNotFoundMsg "rule_results")) ∧
    report_m true (fun _ => SendOutcome.ok) sample0
      = (sample0, some (keyNotFoundMsg "rule_results")) :=
  report_without_rule_results_raises true (fun _ => SendOutcome.ok) sample0 rfl

/-- C4: when the job-hash pattern substitution changes the path,
`get_job_hash` returns the captured group and creates no directory; when it
leaves the path unchanged, it returns the freshly generated hash and
creates exactly one directory for that hash under the base directory. -/
theorem get_job_hash_spec (env : Env) (s : SampleState) :
    (env.re_sub ≠ s.path → get_job_hash env s = (env.re_sub, [])) ∧
    (env.re_sub = s.path →
      get_job_hash env s
        = (env.fresh_hash,
           [FsAction.mkdir (s.base_dir ++ "/" ++ env.fresh_hash)])) := by
  constructor
  · intro h
    simp [get_job_hash, h]
  · intro h
    simp [get_job_hash, h]

theorem get_job_hash_spec_witness :
    get_job_hash ⟨"cafe", "job123", "fresh456", ".tmpX"⟩ sample0
      = ("job123", []) ∧
    get_job_hash ⟨"cafe", "/tmp/p001", "fresh456", ".tmpX"⟩ sample0
      = ("fresh456", [FsAction.mkdir ("/var/lib/peekaboo" ++ "/" ++ "fresh456")]) :=
  ⟨(get_job_hash_spec ⟨"cafe", "job123", "fresh456", ".tmpX"⟩ sample0).1
      (by decide),
   (get_job_hash_spec ⟨"cafe", "/tmp/p001", "fresh456", ".tmpX"⟩ sample0).2 rfl⟩

theorem sha256sum_acc_memo (h1 h2 : String) (s : SampleState) :
    sha256sum_acc h2 (sha256sum_acc h1 s).2.1
      = ((sha256sum_acc h1 s).1, (sha256sum_acc h1 s).2.1, false) := by
  cases hl : lookup_attr s.attributes "sha256sum" with
  | some v => simp [sha256sum_acc, hl]
  | none =>
      simp [sha256sum_acc, hl, set_attr_true, lookup_dict_insert_self,
        AttrValue.asStr]

theorem file_extension_acc_memo (s : SampleState) :
    file_extension_acc (file_extension_acc s).2.1
      = ((file_extension_acc s).1, (file_extension_acc s).2.1, false) := by
  cases hl : lookup_attr s.attributes "file_extension" with
  | some v => simp [file_extension_acc, hl]
  | none =>
      simp [file_extension_acc, hl, set_attr_true, lookup_dict_insert_self,
        AttrValue.asStr]

theorem mimetypes_acc_memo (cs cs' : Option String)
    (ns ns' : String → Option String) (s : SampleState) :
    mimetypes_acc cs' ns' (mimetypes_acc cs ns s).2.1
      = ((mimetypes_acc cs ns s).1, (mimetypes_acc cs ns s).2.1, false) := by
  cases hl : lookup_attr s.attributes "mimetypes" with
  | some v => simp [mimetypes_acc, hl]
  | none =>
      simp [mimetypes_acc, hl, set_attr_true, lookup_dict_insert_self,
        AttrValue.asMime]

theorem file_size_acc_memo (st st' : FileStat) (s : SampleState) :
    file_size_acc st' (file_size_acc st s).2.1
      = ((file_size_acc st s).1, (file_size_acc st s).2.1, false) := by
  cases hl : lookup_attr s.attributes "file_stat" with
  | some v => simp [file_size_acc, hl]
  | none =>
      simp [file_size_acc, hl, set_attr_true, lookup_dict_insert_self,
        AttrValue.asStat]

theorem analyses_time_acc_memo (t1 t2 : String) (s : SampleState) :
    analyses_time_acc t2 (analyses_time_acc t1 s).2.1
      = ((analyses_time_acc t1 s).1, (analyses_time_acc t1 s).2.1, false) := by
  cases hl : lookup_attr s.attributes "analyses_time" with
  | some v => simp [analyses_time_acc, hl]
  | none =>
      simp [analyses_time_acc, hl, set_attr_true, lookup_dict_insert_self,
        AttrValue.asStr]

theorem office_macros_acc_memo (m1 m2 : Bool) (s : SampleState) :
    office_macros_acc m2 (office_macros_acc m1 s).2.1
      = ((office_macros_acc m1 s).1, (office_macros_acc m1 s).2.1, false) := by
  cases hl : lookup_attr s.attributes "office_macros" with
  | some v => simp [office_macros_acc, hl]
  | none =>
      simp [office_macros_acc, hl, set_attr_true, lookup_dict_insert_self,
        AttrValue.asFlag]

/-- C8: every derived-property accessor (sha256 hash, file extension, MIME
set, file size, analysis timestamp, macro flag) computes on first access
and thereafter returns the cached value unconditionally: a second call —
even against a changed underlying file, i.e. with arbitrary different
oracle values — returns the identical value, leaves the state unchanged,
and performs no recomputation (the `Bool` component is `false`). -/
theorem accessors_memoize (s : SampleState) (h1 h2 : String)
    (cs cs' : Option String) (ns ns' : String → Option String)
    (st st' : FileStat) (t1 t2 : String) (m1 m2 : Bool) :
    sha256sum_acc h2 (sha256sum_acc h1 s).2.1
      = ((sha256sum_acc h1 s).1, (sha256sum_acc h1 s).2.1, false) ∧
    file_extension_acc (file_extension_acc s).2.1
      = ((file_extension_acc s).1, (file_extension_acc s).2.1, false) ∧
    mimetypes_acc cs' ns' (mimetypes_acc cs ns s).2.1
      = ((mimetypes_acc cs ns s).1, (mimetypes_acc cs ns s).2.1, false) ∧
    file_size_acc st' (file_size_acc st s).2.1
      = ((file_size_acc st s).1, (file_size_acc st s).2.1, false) ∧
    analyses_time_acc t2 (analyses_time_acc t1 s).2.1
      = ((analyses_time_acc t1 s).1, (analyses_time_acc t1 s).2.1, false) ∧
    office_macros_acc m2 (office_macros_acc m1 s).2.1
      = ((office_macros_acc m1 s).1, (office_macros_acc m1 s).2.1, false) :=
  ⟨sha256sum_acc_memo h1 h2 s, file_extension_acc_memo s,
   mimetypes_acc_memo cs cs' ns ns' s, file_size_acc_memo st st' s,
   analyses_time_acc_memo t1 t2 s, office_macros_acc_memo m1 m2 s⟩

/-- The contribution of an optional MIME-type signal to the result set. -/
def optset : Option String → Finset String
  | some t => {t}
  | none => ∅

/-- C2: for a sample whose declared (or raw) filename is `smime.p7s` and
whose declared type is on the PKCS#7 allow-list, a first access to
`mimetypes` (nothing cached) returns exactly the singleton of the declared
type, whatever the content and name sniffers would return. -/
theorem mimetypes_smime_exception (s : SampleState) (cs : Option String)
    (ns : String → Option String) (t : String)
    (h0 : lookup_attr s.attributes "mimetypes" = none)
    (h1 : declared_type s = some t)
    (h2 : declared_name s = "smime.p7s")
    (h3 : t ∈ leave_alone_p7s) :
    (mimetypes_acc cs ns s).1 = {t} := by
  have hp : p7sDeclared (some t) = true := by
    simpa [p7sDeclared] using h3
  simp [mimetypes_acc, h0, mimetypes_compute, h1, h2, hp]

theorem mimetypes_smime_exception_witness :
    (mimetypes_acc (some "application/octet-stream")
      (fun _ => some "text/plain")
      { sample0 with attributes :=
          [("meta_info_name_declared", AttrValue.str "smime.p7s"),
           ("meta_info_type_declared",
             AttrValue.str "application/pkcs7-signature")] }).1
      = {"application/pkcs7-signature"} :=
  mimetypes_smime_exception
    { sample0 with attributes :=
        [("meta_info_name_declared", AttrValue.str "smime.p7s"),
         ("meta_info_type_declared",
           AttrValue.str "application/pkcs7-signature")] }
    (some "application/octet-stream") (fun _ => some "text/plain")
    "application/pkcs7-signature" rfl (by decide) (by decide) (by decide)

/-- C5: outside the `smime.p7s` exception, the computed MIME set is the
union of the declared type (when present), the content-sniffed type of the
original path (when any), and the name-sniffed type of the declared
filename (when any). -/
theorem mimetypes_general_union (dt cs : Option String) (dn : String)
    (ns : String → Option String)
    (h : (dn == "smime.p7s" && p7sDeclared dt) = false) :
    mimetypes_compute dt dn cs ns
      = optset dt ∪ optset cs ∪ optset (ns dn) := by
  cases dt <;> cases cs <;> cases hns : ns dn <;>
    simp [mimetypes_compute, h, hns, optset] <;>
    ext x <;> simp <;> tauto

theorem mimetypes_general_union_witness :
    mimetypes_compute (some "text/plain") "p001"
      (some "application/octet-stream") (fun _ => none)
      = optset (some "text/plain") ∪ optset (some "application/octet-stream")
        ∪ optset none :=
  mimetypes_general_union (some "text/plain") (some "application/octet-stream")
    "p001" (fun _ => none) (by decide)

theorem determine_result_loop_append (st : RResult × Option String)
    (l1 l2 : List RuleResult) :
    determine_result_loop st (l1 ++ l2)
      = determine_result_loop (determine_result_loop st l1) l2 := by
  induction l1 generalizing st with
  | nil => rfl
  | cons r l ih => simp [determine_result_loop, ih]

theorem determine_result_loop_le (l : List RuleResult) (b : Nat)
    (st : RResult × Option String)
    (hl : ∀ x ∈ l, x.result.sev ≤ b) (hst : st.1.sev ≤ b) :
    (determine_result_loop st l).1.sev ≤ b := by
  induction l generalizing st with
  | nil => exact hst
  | cons r l ih =>
      simp only [determine_result_loop]
      by_cases hc : st.1.sev ≤ r.result.sev
      · rw [if_pos hc]
        exact ih _ (fun x hx => hl x (List.mem_cons_of_mem r hx))
          (hl r (List.mem_cons_self r l))
      · rw [if_neg hc]
        exact ih _ (fun x hx => hl x (List.mem_cons_of_mem r hx)) hst

theorem determine_result_loop_stable (l : List RuleResult)
    (st : RResult × Option String)
    (h : ∀ x ∈ l, x.result.sev < st.1.sev) :
    determine_result_loop st l = st := by
  induction l with
  | nil => rfl
  | cons r l ih =>
      have hr := h r (by simp)
      simp only [determine_result_loop]
      rw [if_neg (by omega)]
      exact ih (fun x hx => h x (by simp [hx]))

theorem foldl_add_rule_result_lookup (l : List RuleResult) (s : SampleState)
    (acc : List RuleResult)
    (h : lookup_attr s.attributes "rule_results" = some (.results acc)) :
    lookup_attr (List.foldl add_rule_result s l).attributes "rule_results"
      = some (.results (acc ++ l)) := by
  induction l generalizing s acc with
  | nil => simpa using h
  | cons r l ih =>
      simp only [List.foldl_cons]
      have h1 : lookup_attr (add_rule_result s r).attributes "rule_results"
          = some (.results (acc ++ [r])) := by
        simp [add_rule_result, h, set_attr_true, lookup_dict_insert_self,
          AttrValue.asResults]
      simpa using ih (add_rule_result s r) (acc ++ [r]) h1

theorem foldl_add_rule_result_lookup_none (x : RuleResult)
    (xs : List RuleResult) (s : SampleState)
    (h : lookup_attr s.attributes "rule_results" = none) :
    lookup_attr (List.foldl add_rule_result s (x :: xs)).attributes
      "rule_results" = some (.results (x :: xs)) := by
  simp only [List.foldl_cons]
  have h1 : lookup_attr (add_rule_result s x).attributes "rule_results"
      = some (.results [x]) := by
    simp [add_rule_result, h, set_attr_true, lookup_dict_insert_self]
  simpa using foldl_add_rule_result_lookup xs (add_rule_result s x) [x] h1

theorem foldl_add_rule_result_fields (l : List RuleResult)
    (s : SampleState) :
    (List.foldl add_rule_result s l).result = s.result ∧
    (List.foldl add_rule_result s l).reason = s.reason := by
  induction l generalizing s with
  | nil => exact ⟨rfl, rfl⟩
  | cons r l ih => exact ih (add_rule_result s r)

/-- C1: for verdicts accumulated via `add_rule_result`, `determine_result`
folds the sequence in order, replacing the held pair exactly when the
verdict's severity is greater than or equal to the held one; hence when `r`
is a verdict of maximal severity and the last such one (everything before
it is no stronger, everything after it strictly weaker), the final result
and reason are `r`'s — last-equal-wins. -/
theorem determine_result_last_equal_wins (s : SampleState)
    (pre post : List RuleResult) (r : RuleResult)
    (hattr : lookup_attr s.attributes "rule_results" = none)
    (hres : s.result = RResult.unchecked) (hrsn : s.reason = none)
    (hpre : ∀ x ∈ pre, x.result.sev ≤ r.result.sev)
    (hpost : ∀ x ∈ post, x.result.sev < r.result.sev) :
    (determine_result_m
        (List.foldl add_rule_result s (pre ++ r :: post))).1.result
      = r.result ∧
    (determine_result_m
        (List.foldl add_rule_result s (pre ++ r :: post))).1.reason
      = some r.reason := by
  have hL : ∃ x xs, pre ++ r :: post = x :: xs := by
    cases pre with
    | nil => exact ⟨r, post, rfl⟩
    | cons a l => exact ⟨a, l ++ r :: post, by simp⟩
  obtain ⟨x, xs, hxx⟩ := hL
  have hlook : lookup_attr
      (List.foldl add_rule_result s (pre ++ r :: post)).attributes
      "rule_results" = some (.results (pre ++ r :: post)) := by
    rw [hxx]
    exact foldl_add_rule_result_lookup_none x xs s hattr
  have hfields := foldl_add_rule_result_fields (pre ++ r :: post) s
  have hloop : determine_result_loop
      ((List.foldl add_rule_result s (pre ++ r :: post)).result,
       (List.foldl add_rule_result s (pre ++ r :: post)).reason)
      (pre ++ r :: post) = (r.result, some r.reason) := by
    rw [hfields.1, hfields.2, hres, hrsn, determine_result_loop_append]
    have hle : (determine_result_loop (RResult.unchecked, none) pre).1.sev
        ≤ r.result.sev :=
      determine_result_loop_le pre r.result.sev _ hpre (Nat.zero_le _)
    simp only [determine_result_loop]
    rw [if_pos hle]
    exact determine_result_loop_stable post _ (by simpa using hpost)
  have hget : get_attr
      (List.foldl add_rule_result s (pre ++ r :: post)).attributes
      "rule_results" = .ok (.results (pre ++ r :: post)) := by
    unfold get_attr
    rw [hlook]
  have hm : determine_result_m (List.foldl add_rule_result s (pre ++ r :: post))
      = ({ List.foldl add_rule_result s (pre ++ r :: post) with
            result := r.result, reason := some r.reason }, none) := by
    unfold determine_result_m
    rw [hget]
    simp only [AttrValue.asResults]
    rw [hloop]
  rw [hm]
  exact ⟨rfl, rfl⟩

theorem determine_result_last_equal_wins_witness :
    (determine_result_m
        (List.foldl add_rule_result sample0
          ([⟨.suspicious, "reasonA"⟩] ++ ⟨.suspicious, "reasonB"⟩
            :: [⟨.clean, "benign"⟩]))).1.result = RResult.suspicious ∧
    (determine_result_m
        (List.foldl add_rule_result sample0
          ([⟨.suspicious, "reasonA"⟩] ++ ⟨.suspicious, "reasonB"⟩
            :: [⟨.clean, "benign"⟩]))).1.reason = some "reasonB" :=
  determine_result_last_equal_wins sample0 [⟨.suspicious, "reasonA"⟩]
    [⟨.clean, "benign"⟩] ⟨.suspicious, "reasonB"⟩ rfl rfl rfl
    (by decide) (by decide)

theorem send_message_none (sock : Bool) (out : SendOutcome) (m : String) :
    send_message sock out m = none := by
  cases sock <;> cases out <;> simp [send_message, socket_send]

theorem report_emit_appends (sock : Bool) (outs : Nat → SendOutcome)
    (i : Nat) (s : SampleState) (ms : List String) :
    report_emit sock outs i s ms
      = ({ s with report := s.report ++ ms }, none) := by
  induction ms generalizing i s with
  | nil => simp [report_emit]
  | cons m ms ih =>
      simp only [report_emit, send_message_none]
      rw [ih]
      simp

/-- C9: the socket send of a report line never propagates an exception to
the caller whatever the transport outcome; `report` completes normally
whenever `rule_results` is present, produces the same state as a run whose
sends all succeed (so failing sends lose nothing), and only appends to the
in-memory report, which therefore still contains every emitted line in
order. -/
theorem report_send_failure_swallowed (sock : Bool)
    (outs : Nat → SendOutcome) (out : SendOutcome) (m : String)
    (s : SampleState) (v : AttrValue)
    (h : lookup_attr s.attributes "rule_results" = some v) :
    send_message sock out m = none ∧
    (report_m sock outs s).2 = none ∧
    report_m sock outs s = report_m true (fun _ => SendOutcome.ok) s ∧
    ∃ lines, (report_m sock outs s).1.report = s.report ++ lines := by
  have hget : get_attr s.attributes "rule_results" = .ok v := by
    unfold get_attr
    rw [h]
  have hrep : ∀ (sk : Bool) (os : Nat → SendOutcome),
      report_m sk os s = report_m true (fun _ => SendOutcome.ok) s := by
    intro sk os
    unfold report_m determine_result_m
    simp only [hget, report_emit_appends]
  have hone : ∀ (sk : Bool) (os : Nat → SendOutcome),
      ∃ lines, (report_m sk os s).1.report = s.report ++ lines ∧
        (report_m sk os s).2 = none := by
    intro sk os
    unfold report_m determine_result_m
    simp only [hget, report_emit_appends]
    exact ⟨_, rfl, trivial⟩
  refine ⟨send_message_none sock out m, (hone sock outs).choose_spec.2,
    hrep sock outs,
    (hone sock outs).choose, (hone sock outs).choose_spec.1⟩

theorem report_send_failure_swallowed_witness :
    send_message true (SendOutcome.ioerror 32) "line" = none ∧
    (report_m true (fun _ => SendOutcome.ioerror 32)
      { sample0 with attributes :=
          [("rule_results", AttrValue.results [⟨.clean, "ok"⟩])] }).2
      = none ∧
    report_m true (fun _ => SendOutcome.ioerror 32)
      { sample0 with attributes :=
          [("rule_results", AttrValue.results [⟨.clean, "ok"⟩])] }
      = report_m true (fun _ => SendOutcome.ok)
          { sample0 with attributes :=
              [("rule_results", AttrValue.results [⟨.clean, "ok"⟩])] } ∧
    ∃ lines, (report_m true (fun _ => SendOutcome.ioerror 32)
        { sample0 with attributes :=
            [("rule_results", AttrValue.results [⟨.clean, "ok"⟩])] }).1.report
      = ({ sample0 with attributes :=
            [("rule_results", AttrValue.results [⟨.clean, "ok"⟩])] }
          : SampleState).report ++ lines :=
  report_send_failure_swallowed true (fun _ => SendOutcome.ioerror 32)
    (SendOutcome.ioerror 32) "line"
    { sample0 with attributes :=
        [("rule_results", AttrValue.results [⟨.clean, "ok"⟩])] }
    (AttrValue.results [⟨.clean, "ok"⟩]) rfl

theorem sha256sum_acc_flag (h : String) (s : SampleState) :
    (sha256sum_acc h s).2.1.initialized = s.initialized := by
  unfold sha256sum_acc
  cases lookup_attr s.attributes "sha256sum" <;> rfl

theorem file_extension_acc_flag (s : SampleState) :
    (file_extension_acc s).2.1.initialized = s.initialized := by
  unfold file_extension_acc
  cases lookup_attr s.attributes "file_extension" <;> rfl

theorem init_workdir_flag (env : Env) (fe : String) (s : SampleState) :
    (init_workdir env fe s).1.initialized = s.initialized := by
  unfold init_workdir
  by_cases h : fe != ""
  · rw [if_pos h]
    exact sha256sum_acc_flag env.file_hash s
  · rw [if_neg h]

theorem init_report_flag (env : Env) (s : SampleState) :
    (init_report env s).1.initialized = s.initialized := by
  simp only [init_report]
  split <;> split <;> simp [sha256sum_acc_flag]

theorem init_fst_flag (env : Env) (s : SampleState) :
    (init env s).1.initialized = true := by
  by_cases h : s.initialized
  · simp [init, h]
  · simp only [init, h, if_false, Bool.false_eq_true]
    rw [init_report_flag]

/-- C6: `init` is idempotent — after any first call (which always leaves
the `initialized` flag set), a second call returns the state unchanged and
performs no filesystem or transport action and no report append at all. -/
theorem init_idempotent (env1 env2 : Env) (s : SampleState) :
    init env2 (init env1 s).1 = ((init env1 s).1, []) := by
  have h := init_fst_flag env1 s
  generalize hX : init env1 s = X at h ⊢
  unfold init
  rw [h]
  simp

end Peekaboo
